import Mathlib

/-!
Verification of the catcaster fan-out server (src/main.ts and its lib/ modules).

Shallow embedding notes:
* JS numbers (millisecond timestamps and intervals) are modelled as rationals;
  a possibly-NaN result of the JS Number() coercion is an Option rational,
  with none standing for a non-finite value.
* The WebSocket transport handle is abstracted to the one bit the code reads,
  wsOpen, standing for the test readyState equals OPEN.  Sending is recorded
  as a list of (client id, message) pairs in send order; the try/catch that
  swallows transport exceptions is outside the model.
* The random cat URL produced by randomCatUrl() is abstracted away: the
  reference-mode push message records only the timestamp field of the JSON
  the code sends.
* The string rendering of numbers inside reply texts is abstracted: replies
  are structured values carrying the echoed data.
-/

namespace Catcaster

/-- Payload mode of a connection, the "url" | "bin" union in main.ts. -/
inductive Mode
  | url
  | bin
deriving DecidableEq, Repr

/-- Application configuration, the AppConfig type in lib/config.ts. -/
structure AppConfig where
  target_ip : String
  port : Nat
  cat_interval_ms : ℚ
  cat_mode : Mode
  max_clients : Nat
  allow_origins : List String
deriving DecidableEq, Repr

/-- The display-relevant fields exposed to clients by safeConfigForClient. -/
structure SafeConfig where
  target_ip : String
  port : Nat
  cat_interval_ms : ℚ
  cat_mode : Mode
  max_clients : Nat
deriving DecidableEq, Repr

/-- Embeds safeConfigForClient from main.ts: project the shared config to its
client-visible fields. -/
def safeConfigForClient (cfg : AppConfig) : SafeConfig :=
  { target_ip := cfg.target_ip
    port := cfg.port
    cat_interval_ms := cfg.cat_interval_ms
    cat_mode := cfg.cat_mode
    max_clients := cfg.max_clients }

/-- Result of fetchCatBytes in lib/cat.ts: a content type plus raw bytes. -/
structure BinPayload where
  type : String
  bytes : List Nat
deriving DecidableEq, Repr

/-- State of one bidirectional (WebSocket) connection, the WsClient record in
main.ts.  wsOpen abstracts the readyState equals OPEN test on the socket. -/
structure WsClient where
  id : String
  intervalMs : ℚ
  paused : Bool
  lastSentAt : ℚ
  mode : Mode
  wsOpen : Bool
deriving DecidableEq, Repr

/-- A message sent by the server over one WebSocket, as a structured value
(the code serialises these to JSON strings or a binary frame). -/
inductive ServerMsg
  | helpMsg
  | okIntervalSet (ms : ℚ)
  | okPaused
  | okResumed
  | okModeSet (m : Mode)
  | pong (ts : ℚ)
  | you (id : String) (intervalMs : ℚ) (paused : Bool) (mode : Mode)
  | error (message : String)
  | catUrl (ts : ℚ)
  | catBinHeader (mime : String) (ts : ℚ)
  | binFrame (bytes : List Nat)
  | configMsg (cfg : SafeConfig)
deriving DecidableEq, Repr

/-- Embeds the someoneWantsBin computation of the tick callback in
startTickerIfNeeded (main.ts line 138): some client has mode bin and is not
paused.  Dueness and transport state are not consulted. -/
def someoneWantsBin (cs : List WsClient) : Bool :=
  cs.any (fun c => c.mode == Mode.bin && !c.paused)

/-- A connection is due at time t when it is unpaused, its transport is open,
and t minus lastSentAt has reached intervalMs (the three guards of the push
loop, main.ts lines 155-158). -/
def isDue (t : ℚ) (c : WsClient) : Bool :=
  !c.paused && c.wsOpen && !(decide (t - c.lastSentAt < c.intervalMs))

/-- One iteration of the push loop body (main.ts lines 154-175) for client c:
returns the updated client, the messages sent to it (in order), and the
increment to the catsSent counter. -/
def pushClient (t : ℚ) (binPayload : Option BinPayload) (c : WsClient) :
    WsClient × List (String × ServerMsg) × Nat :=
  if c.paused then (c, [], 0)
  else if c.wsOpen = false then (c, [], 0)
  else if t - c.lastSentAt < c.intervalMs then (c, [], 0)
  else
    match c.mode, binPayload with
    | Mode.url, _ => ({ c with lastSentAt := t }, [(c.id, ServerMsg.catUrl t)], 1)
    | Mode.bin, none => ({ c with lastSentAt := t }, [], 0)
    | Mode.bin, some p =>
        ({ c with lastSentAt := t },
         [(c.id, ServerMsg.catBinHeader p.type t), (c.id, ServerMsg.binFrame p.bytes)], 1)

/-- The push loop over all clients in registration order. -/
def pushLoop (t : ℚ) (binPayload : Option BinPayload) :
    List WsClient → List WsClient × List (String × ServerMsg) × Nat
  | [] => ([], [], 0)
  | c :: rest =>
      let r := pushClient t binPayload c
      let rs := pushLoop t binPayload rest
      (r.1 :: rs.1, r.2.1 ++ rs.2.1, r.2.2 + rs.2.2)

/-- Observable outcome of one tick: the updated client list, every message
sent over a WebSocket (tagged by client id, in order), how many times
fetchCatBytes was invoked, the increments to the errors and catsSent
counters, and whether the SSE pulse was emitted. -/
structure TickOutput where
  clients : List WsClient
  sent : List (String × ServerMsg)
  fetchCount : Nat
  errorsInc : Nat
  catsSentInc : Nat
  pulsed : Bool
deriving DecidableEq, Repr

/-- Embeds the tick callback installed by startTickerIfNeeded (main.ts lines
132-184).  fetchResult is what the single fetchCatBytes call would return if
invoked this tick (ok payload or thrown error message). -/
def tickBody (t : ℚ) (fetchResult : Except String BinPayload) (cs : List WsClient) :
    TickOutput :=
  if cs.isEmpty then
    { clients := cs, sent := [], fetchCount := 0, errorsInc := 0, catsSentInc := 0,
      pulsed := false }
  else
    let wants := someoneWantsBin cs
    let fetched : Option (Except String BinPayload) := if wants then some fetchResult else none
    let binPayload : Option BinPayload :=
      match fetched with
      | some (Except.ok p) => some p
      | _ => none
    let errorsInc : Nat :=
      match fetched with
      | some (Except.error _) => 1
      | _ => 0
    let failNotices : List (String × ServerMsg) :=
      match fetched with
      | some (Except.error e) =>
          cs.filterMap (fun c => if c.wsOpen then some (c.id, ServerMsg.error e) else none)
      | _ => []
    let r := pushLoop t binPayload cs
    { clients := r.1
      sent := failNotices ++ r.2.1
      fetchCount := if wants then 1 else 0
      errorsInc := errorsInc
      catsSentInc := r.2.2
      pulsed := true }

/-- A message carrying the embedded-bytes payload (the bin header or the raw
binary frame). -/
def isBinPayloadMsg : ServerMsg → Bool
  | ServerMsg.catBinHeader _ _ => true
  | ServerMsg.binFrame _ => true
  | _ => false

def binClientA : WsClient :=
  { id := "b1", intervalMs := 200, paused := false, lastSentAt := 0, mode := Mode.bin,
    wsOpen := true }

def binClientB : WsClient :=
  { id := "b2", intervalMs := 500, paused := false, lastSentAt := 0, mode := Mode.bin,
    wsOpen := true }

def urlClientA : WsClient :=
  { id := "u1", intervalMs := 200, paused := false, lastSentAt := 0, mode := Mode.url,
    wsOpen := true }

def binClientClosed : WsClient :=
  { id := "b3", intervalMs := 60000, paused := false, lastSentAt := 0, mode := Mode.bin,
    wsOpen := false }

def payloadA : BinPayload := { type := "image/jpeg", bytes := [7, 7, 7] }

/-- One-way (SSE) connection entry; the stream controller handle is
abstracted away, only the id matters to the model. -/
structure SseClient where
  id : String
deriving DecidableEq, Repr

/-- Module-level mutable state of main.ts: the current config, the two
registries in insertion order, whether the ticker interval is installed
(ticker not null), and the counters of lib/state.ts. -/
structure ServerState where
  config : AppConfig
  clients : List WsClient
  sseClients : List SseClient
  ticker : Bool
  errors : Nat
  catsSent : Nat
  wsConnections : Nat
deriving DecidableEq, Repr

/-- Embeds originAllowed from main.ts.  none models a null origin header;
the empty string is also falsy in JS and hence allowed. -/
def originAllowed (cfg : AppConfig) (origin : Option String) : Bool :=
  match origin with
  | none => true
  | some o =>
      if o = "" then true
      else if cfg.allow_origins.contains "*" then true
      else cfg.allow_origins.contains o

/-- Embeds startTickerIfNeeded (main.ts line 129): installs the interval
when none is installed; the model records only whether one is installed. -/
def startTickerIfNeeded (s : ServerState) : ServerState :=
  if s.ticker then s else { s with ticker := true }

/-- Embeds stopTickerIfNoClients (main.ts line 187). -/
def stopTickerIfNoClients (s : ServerState) : ServerState :=
  if s.clients.isEmpty && s.ticker then { s with ticker := false } else s

/-- The WsClient record built on upgrade (main.ts lines 265-272).  The fresh
socket is modelled as open. -/
def mkClient (cfg : AppConfig) (id : String) : WsClient :=
  { id := id, intervalMs := cfg.cat_interval_ms, paused := false, lastSentAt := 0,
    mode := cfg.cat_mode, wsOpen := true }

/-- Outcome of a /ws upgrade request. -/
inductive WsResponse
  | originDenied
  | tooManyClients
  | upgraded (id : String)
deriving DecidableEq, Repr

/-- Embeds handleWs (main.ts lines 256-276): origin check, capacity check,
then create, register and start the ticker. -/
def handleWs (origin : Option String) (id : String) (s : ServerState) :
    WsResponse × ServerState :=
  if originAllowed s.config origin = false then (WsResponse.originDenied, s)
  else if s.config.max_clients ≤ s.clients.length then (WsResponse.tooManyClients, s)
  else
    let client := mkClient s.config id
    let s1 := { s with clients := s.clients ++ [client],
                       wsConnections := s.wsConnections + 1 }
    (WsResponse.upgraded id, startTickerIfNeeded s1)

/-- Embeds the cleanup closure installed as onclose/onerror (main.ts lines
393-399): delete the entry, then stop the ticker if no clients remain. -/
def cleanup (id : String) (s : ServerState) : ServerState :=
  stopTickerIfNoClients { s with clients := s.clients.filter (fun c => c.id ≠ id) }

/-- Registration and removal events on the registry. -/
inductive RegistryEvent
  | wsRequest (origin : Option String) (id : String)
  | wsClose (id : String)

/-- The step function of the register/remove state machine. -/
def registryStep : RegistryEvent → ServerState → ServerState
  | RegistryEvent.wsRequest origin id, s => (handleWs origin id s).2
  | RegistryEvent.wsClose id, s => cleanup id s

/-- Dispatcher-running invariant: the ticker is installed iff the registry
is non-empty. -/
def tickerInv (s : ServerState) : Prop :=
  s.ticker = true ↔ s.clients ≠ []

def cfgRestricted : AppConfig :=
  { target_ip := "127.0.0.1", port := 8000, cat_interval_ms := 2500, cat_mode := Mode.url,
    max_clients := 1, allow_origins := ["http://ok.example"] }

def stateAtCapacity : ServerState :=
  { config := cfgRestricted, clients := [mkClient cfgRestricted "c1"], sseClients := [],
    ticker := true, errors := 0, catsSent := 0, wsConnections := 1 }

def emptyState : ServerState :=
  { config := cfgRestricted, clients := [], sseClients := [], ticker := false,
    errors := 0, catsSent := 0, wsConnections := 0 }

/-- Destination of one broadcast message: an SSE stream or a WebSocket. -/
inductive Sink
  | sse (id : String)
  | ws (id : String)
deriving DecidableEq, Repr

/-- Embeds broadcastConfigUpdate (main.ts lines 95-102): an SSE config event
to every one-way client, then the config snapshot to every open WebSocket. -/
def broadcastConfigUpdate (s : ServerState) : List (Sink × ServerMsg) :=
  s.sseClients.map
    (fun c => (Sink.sse c.id, ServerMsg.configMsg (safeConfigForClient s.config)))
  ++ s.clients.filterMap
    (fun c =>
      if c.wsOpen then some (Sink.ws c.id, ServerMsg.configMsg (safeConfigForClient s.config))
      else none)

/-- The /api/config endpoint (main.ts lines 499-501). -/
def apiConfig (s : ServerState) : SafeConfig := safeConfigForClient s.config

/-- Embeds one iteration of the hot-reload loop (main.ts lines 463-478):
result is what loadConfig returned (ok) or threw (error).  On success the
config is swapped and broadcast; on failure the error counter increments and
nothing else changes. -/
def reloadAttempt (result : Except String AppConfig) (s : ServerState) :
    ServerState × List (Sink × ServerMsg) :=
  match result with
  | Except.ok newCfg =>
      let s1 := { s with config := newCfg }
      (s1, broadcastConfigUpdate s1)
  | Except.error _ => ({ s with errors := s.errors + 1 }, [])

def stateWithListeners : ServerState :=
  { config := cfgRestricted,
    clients := [binClientA, { urlClientA with wsOpen := false }],
    sseClients := [{ id := "s1" }], ticker := true, errors := 0, catsSent := 0,
    wsConnections := 2 }

def cfgNew : AppConfig :=
  { target_ip := "10.0.0.2", port := 9000, cat_interval_ms := 1000, cat_mode := Mode.bin,
    max_clients := 5, allow_origins := ["*"] }

/-- Embeds the handleCommand closure of socket.onmessage (main.ts lines
297-363).  jsNumber abstracts the JS Number() coercion of a string, with
none for a non-finite (NaN) result; the missing-argument case Number of
undefined is NaN.  t is the current Date.now().  Replies are sent only when
the socket is open, as in the reply helper. -/
def handleCommand (jsNumber : String → Option ℚ) (t : ℚ) (cmd : String)
    (args : List String) (c : WsClient) : WsClient × List ServerMsg :=
  let reply : ServerMsg → List ServerMsg := fun m => if c.wsOpen then [m] else []
  match cmd with
  | "help" => (c, reply ServerMsg.helpMsg)
  | "interval" =>
      let ms : Option ℚ :=
        match args.head? with
        | none => none
        | some a => jsNumber a
      match ms with
      | none => (c, reply (ServerMsg.error "interval must be 200..60000 ms"))
      | some q =>
          if q < 200 ∨ q > 60000 then
            (c, reply (ServerMsg.error "interval must be 200..60000 ms"))
          else ({ c with intervalMs := q }, reply (ServerMsg.okIntervalSet q))
  | "pause" => ({ c with paused := true }, reply ServerMsg.okPaused)
  | "resume" => ({ c with paused := false }, reply ServerMsg.okResumed)
  | "mode" =>
      let m := (args.headD "").toLower
      if m = "url" then ({ c with mode := Mode.url }, reply (ServerMsg.okModeSet Mode.url))
      else if m = "bin" then ({ c with mode := Mode.bin }, reply (ServerMsg.okModeSet Mode.bin))
      else (c, reply (ServerMsg.error "mode must be url or bin"))
  | "ping" => (c, reply (ServerMsg.pong t))
  | "whoami" => (c, reply (ServerMsg.you c.id c.intervalMs c.paused c.mode))
  | _ => (c, reply (ServerMsg.error ("unknown command: " ++ cmd)))

/-- The fields the code reads from a successfully parsed structured message
(main.ts lines 371-381): cmd models String of obj.cmd else empty, ms models
String of obj.ms else empty, mode models String of obj.mode else empty. -/
structure JsonCmdMsg where
  cmd : String
  ms : String
  mode : String
deriving DecidableEq, Repr

/-- Dispatch of a parsed structured message (main.ts lines 372-381).  The
cmd is not lowercased on this path. -/
def handleJson (jsNumber : String → Option ℚ) (t : ℚ) (obj : JsonCmdMsg) (c : WsClient) :
    WsClient × List ServerMsg :=
  if obj.cmd = "" then (c, [])
  else if obj.cmd = "interval" then handleCommand jsNumber t "interval" [obj.ms] c
  else if obj.cmd = "mode" then handleCommand jsNumber t "mode" [obj.mode] c
  else if obj.cmd = "pause" then handleCommand jsNumber t "pause" [] c
  else if obj.cmd = "resume" then handleCommand jsNumber t "resume" [] c
  else if obj.cmd = "help" then handleCommand jsNumber t "help" [] c
  else if obj.cmd = "ping" then handleCommand jsNumber t "ping" [] c
  else if obj.cmd = "whoami" then handleCommand jsNumber t "whoami" [] c
  else handleCommand jsNumber t obj.cmd [] c

/-- Structural model of the JS String trim: drop whitespace from both ends.
Defined by structural recursion over the character list so that concrete
instances evaluate. -/
def jsTrim (s : String) : String :=
  String.mk (((s.data.dropWhile Char.isWhitespace).reverse.dropWhile Char.isWhitespace).reverse)

/-- The opening-brace character, code point 123. -/
def lbrace : Char := Char.ofNat 123

/-- Does the string start with an opening brace (the startsWith test on
main.ts line 369)? -/
def startsWithLbrace (s : String) : Bool :=
  match s.data with
  | [] => false
  | ch :: _ => ch = lbrace

/-- Structural model of split on the whitespace regex applied to a trimmed
string: the whitespace-separated words, in order. -/
def jsWordsAux : List Char → List Char → List String
  | [], acc => if acc.isEmpty then [] else [String.mk acc.reverse]
  | ch :: rest, acc =>
      if ch.isWhitespace then
        if acc.isEmpty then jsWordsAux rest [] else String.mk acc.reverse :: jsWordsAux rest []
      else jsWordsAux rest (ch :: acc)

/-- The whitespace-separated words of a string. -/
def jsWords (s : String) : List String := jsWordsAux s.data []

/-- Plain-text command parsing (main.ts lines 388-389): split on whitespace,
lowercase the command word, pass the rest as arguments. -/
def handleText (jsNumber : String → Option ℚ) (t : ℚ) (s : String) (c : WsClient) :
    WsClient × List ServerMsg :=
  let parts := jsWords s
  handleCommand jsNumber t (parts.headD "").toLower parts.tail c

/-- Embeds socket.onmessage for string data (main.ts lines 365-390):
trim, ignore empty input, try the structured parse when the input starts
with an opening brace, and fall back to plain-text parsing when it fails.
parseJson abstracts JSON.parse: none models a thrown parse error. -/
def onMessage (jsNumber : String → Option ℚ) (parseJson : String → Option JsonCmdMsg)
    (t : ℚ) (raw : String) (c : WsClient) : WsClient × List ServerMsg :=
  let s := jsTrim raw
  if s = "" then (c, [])
  else if startsWithLbrace s then
    match parseJson s with
    | some obj => handleJson jsNumber t obj c
    | none => handleText jsNumber t s c
  else handleText jsNumber t s c

def jsNumberLit : String → Option ℚ := fun a =>
  if a = "250" then some 250 else if a = "100" then some 100 else none

def parseJsonNone : String → Option JsonCmdMsg := fun _ => none

theorem someoneWantsBin_iff (cs : List WsClient) :
    someoneWantsBin cs = true ↔ ∃ c ∈ cs, c.mode = Mode.bin ∧ c.paused = false := by
  simp [someoneWantsBin, List.any_eq_true, Bool.and_eq_true, Bool.not_eq_true']

theorem someoneWantsBin_ne_nil {cs : List WsClient} (h : someoneWantsBin cs = true) :
    cs.isEmpty = false := by
  cases cs with
  | nil => simp [someoneWantsBin] at h
  | cons c rest => rfl

theorem tickBody_err_eq (t : ℚ) (e : String) (cs : List WsClient)
    (hw : someoneWantsBin cs = true) :
    tickBody t (Except.error e) cs =
      { clients := (pushLoop t none cs).1
        sent := cs.filterMap (fun c => if c.wsOpen then some (c.id, ServerMsg.error e) else none)
          ++ (pushLoop t none cs).2.1
        fetchCount := 1
        errorsInc := 1
        catsSentInc := (pushLoop t none cs).2.2
        pulsed := true } := by
  simp [tickBody, someoneWantsBin_ne_nil hw, hw]

theorem tickBody_ok_eq (t : ℚ) (p : BinPayload) (cs : List WsClient)
    (hw : someoneWantsBin cs = true) :
    tickBody t (Except.ok p) cs =
      { clients := (pushLoop t (some p) cs).1
        sent := (pushLoop t (some p) cs).2.1
        fetchCount := 1
        errorsInc := 0
        catsSentInc := (pushLoop t (some p) cs).2.2
        pulsed := true } := by
  simp [tickBody, someoneWantsBin_ne_nil hw, hw]

theorem tickBody_noWants_eq (t : ℚ) (fr : Except String BinPayload) (cs : List WsClient)
    (hne : cs.isEmpty = false) (hw : someoneWantsBin cs = false) :
    tickBody t fr cs =
      { clients := (pushLoop t none cs).1
        sent := (pushLoop t none cs).2.1
        fetchCount := 0
        errorsInc := 0
        catsSentInc := (pushLoop t none cs).2.2
        pulsed := true } := by
  simp [tickBody, hne, hw]

theorem pushClient_fst (t : ℚ) (bp : Option BinPayload) (c : WsClient) :
    (pushClient t bp c).1 = if isDue t c = true then { c with lastSentAt := t } else c := by
  unfold pushClient isDue
  cases hp : c.paused with
  | true => simp [hp]
  | false =>
    cases ho : c.wsOpen with
    | false => simp [hp, ho]
    | true =>
      by_cases hlt : t - c.lastSentAt < c.intervalMs
      · simp [hp, ho, hlt]
      · cases hm : c.mode <;> cases bp <;> simp [hp, ho, hlt, hm]

theorem pushLoop_fst (t : ℚ) (bp : Option BinPayload) (cs : List WsClient) :
    (pushLoop t bp cs).1 =
      cs.map (fun c => if isDue t c = true then { c with lastSentAt := t } else c) := by
  induction cs with
  | nil => rfl
  | cons c rest ih => simp [pushLoop, ih, pushClient_fst]

theorem pushClient_snd_url (t : ℚ) (bp : Option BinPayload) (c : WsClient)
    (hd : isDue t c = true) (hm : c.mode = Mode.url) :
    (pushClient t bp c).2.1 = [(c.id, ServerMsg.catUrl t)] := by
  unfold isDue at hd
  simp only [Bool.and_eq_true, Bool.not_eq_true', decide_eq_false_iff_not] at hd
  unfold pushClient
  simp [hd.1.1, hd.1.2, hd.2, hm]

theorem pushClient_snd_bin_some (t : ℚ) (p : BinPayload) (c : WsClient)
    (hd : isDue t c = true) (hm : c.mode = Mode.bin) :
    (pushClient t (some p) c).2.1 =
      [(c.id, ServerMsg.catBinHeader p.type t), (c.id, ServerMsg.binFrame p.bytes)] := by
  unfold isDue at hd
  simp only [Bool.and_eq_true, Bool.not_eq_true', decide_eq_false_iff_not] at hd
  unfold pushClient
  simp [hd.1.1, hd.1.2, hd.2, hm]

theorem pushLoop_mem_of_mem (t : ℚ) (bp : Option BinPayload) (cs : List WsClient)
    (c : WsClient) (hc : c ∈ cs) (x : String × ServerMsg)
    (hx : x ∈ (pushClient t bp c).2.1) : x ∈ (pushLoop t bp cs).2.1 := by
  induction cs with
  | nil => cases hc
  | cons c0 rest ih =>
    rcases List.mem_cons.mp hc with h | h
    · subst h
      simp [pushLoop]
      exact Or.inl hx
    · simp [pushLoop]
      exact Or.inr (by simpa using ih h)

theorem pushClient_no_bin_msg_of_none (t : ℚ) (c : WsClient) (x : String × ServerMsg)
    (hx : x ∈ (pushClient t none c).2.1) : isBinPayloadMsg x.2 = false := by
  unfold pushClient at hx
  by_cases hp : c.paused <;> simp [hp] at hx
  by_cases ho : c.wsOpen = false <;> simp [ho] at hx
  by_cases hlt : t - c.lastSentAt < c.intervalMs <;> simp [hlt] at hx
  cases hm : c.mode <;> simp [hm] at hx
  subst hx
  rfl

theorem pushLoop_no_bin_msg_of_none (t : ℚ) (cs : List WsClient) (x : String × ServerMsg)
    (hx : x ∈ (pushLoop t none cs).2.1) : isBinPayloadMsg x.2 = false := by
  induction cs with
  | nil => cases hx
  | cons c rest ih =>
    simp [pushLoop] at hx
    rcases hx with h | h
    · exact pushClient_no_bin_msg_of_none t c x h
    · exact ih h

/-- Claim C1: in every tick with at least one due embedded-bytes (bin) mode
connection, fetchCatBytes is invoked exactly once (fetchCount = 1) no matter
how many connections want the payload, and on success the single fetched
payload is the one delivered (header then bytes) to every due bin-mode
connection that tick. -/
theorem fetch_once_when_bin_due (t : ℚ) (fr : Except String BinPayload)
    (cs : List WsClient) (c : WsClient) (hc : c ∈ cs) (hbin : c.mode = Mode.bin)
    (hdue : isDue t c = true) :
    (tickBody t fr cs).fetchCount = 1 ∧
    (∀ p, fr = Except.ok p → ∀ c2 ∈ cs, c2.mode = Mode.bin → isDue t c2 = true →
      (c2.id, ServerMsg.catBinHeader p.type t) ∈ (tickBody t fr cs).sent ∧
      (c2.id, ServerMsg.binFrame p.bytes) ∈ (tickBody t fr cs).sent) := by
  have hpaused : c.paused = false := by
    unfold isDue at hdue
    simp only [Bool.and_eq_true, Bool.not_eq_true'] at hdue
    exact hdue.1.1
  have hw : someoneWantsBin cs = true :=
    (someoneWantsBin_iff cs).mpr ⟨c, hc, hbin, hpaused⟩
  constructor
  · cases fr with
    | ok p => rw [tickBody_ok_eq t p cs hw]
    | error e => rw [tickBody_err_eq t e cs hw]
  · intro p hfr c2 hc2 hbin2 hdue2
    subst hfr
    rw [tickBody_ok_eq t p cs hw]
    have hmsgs := pushClient_snd_bin_some t p c2 hdue2 hbin2
    constructor
    · exact pushLoop_mem_of_mem t (some p) cs c2 hc2 _ (by rw [hmsgs]; simp)
    · exact pushLoop_mem_of_mem t (some p) cs c2 hc2 _ (by rw [hmsgs]; simp)

/-- Claim C2: in every tick in which the expensive fetch is attempted and
fails, the error counter is incremented by exactly 1, every bin-mode
connection with an open transport is notified of the failure, no
embedded-bytes payload message is sent to anyone that tick, and url-mode
pushes to due connections still proceed. -/
theorem fetch_failure_tick (t : ℚ) (e : String) (cs : List WsClient)
    (hw : someoneWantsBin cs = true) :
    (tickBody t (Except.error e) cs).errorsInc = 1 ∧
    (∀ c ∈ cs, c.mode = Mode.bin → c.wsOpen = true →
      (c.id, ServerMsg.error e) ∈ (tickBody t (Except.error e) cs).sent) ∧
    (∀ x ∈ (tickBody t (Except.error e) cs).sent, isBinPayloadMsg x.2 = false) ∧
    (∀ c ∈ cs, c.mode = Mode.url → isDue t c = true →
      (c.id, ServerMsg.catUrl t) ∈ (tickBody t (Except.error e) cs).sent) := by
  rw [tickBody_err_eq t e cs hw]
  refine ⟨rfl, ?_, ?_, ?_⟩
  · intro c hc hbin hopen
    apply List.mem_append_left
    exact List.mem_filterMap.mpr ⟨c, hc, by simp [hopen]⟩
  · intro x hx
    rcases List.mem_append.mp hx with h | h
    · rcases List.mem_filterMap.mp h with ⟨c, hc, hsome⟩
      by_cases ho : c.wsOpen = true
      · simp [ho] at hsome
        rw [← hsome]
        rfl
      · simp [ho] at hsome
    · exact pushLoop_no_bin_msg_of_none t cs x h
  · intro c hc hurl hdue
    apply List.mem_append_right
    exact pushLoop_mem_of_mem t none cs c hc _
      (by rw [pushClient_snd_url t none c hdue hurl]; simp)

/-- Claim C8 (amended): lastSentAt is updated to the tick time exactly for
the connections selected for a push (unpaused, open, due), whether or not a
push message is then actually produced; all other connections keep it
unchanged.  (The original claim fails because a due bin-mode connection on
a failed-fetch tick is updated with no push attempted, see the
counterexample.) -/
theorem tick_lastSentAt_update (t : ℚ) (fr : Except String BinPayload)
    (cs : List WsClient) :
    (tickBody t fr cs).clients =
      cs.map (fun c => if isDue t c = true then { c with lastSentAt := t } else c) := by
  by_cases hempty : cs.isEmpty = true
  · have : cs = [] := List.isEmpty_iff.mp hempty
    subst this
    rfl
  · have hne : cs.isEmpty = false := by simpa using hempty
    by_cases hw : someoneWantsBin cs = true
    · cases fr with
      | ok p => rw [tickBody_ok_eq t p cs hw]; exact pushLoop_fst t (some p) cs
      | error e => rw [tickBody_err_eq t e cs hw]; exact pushLoop_fst t none cs
    · rw [tickBody_noWants_eq t fr cs hne (by simpa using hw)]
      exact pushLoop_fst t none cs

/-- Claim C10: on a tick with a non-empty registry, the expensive fetch is
performed iff some connection is in bin mode and unpaused — dueness and
transport state play no part in the trigger (see the witness, which uses a
closed, non-due bin client). -/
theorem fetch_trigger_iff (t : ℚ) (fr : Except String BinPayload)
    (cs : List WsClient) (hne : cs ≠ []) :
    (tickBody t fr cs).fetchCount = 1 ↔
      ∃ c ∈ cs, c.mode = Mode.bin ∧ c.paused = false := by
  have hnee : cs.isEmpty = false := by
    cases cs with
    | nil => exact absurd rfl hne
    | cons a l => rfl
  by_cases hw : someoneWantsBin cs = true
  · have h1 : (tickBody t fr cs).fetchCount = 1 := by
      cases fr with
      | ok p => rw [tickBody_ok_eq t p cs hw]
      | error e => rw [tickBody_err_eq t e cs hw]
    simp [h1, (someoneWantsBin_iff cs).mp hw]
  · have hwf : someoneWantsBin cs = false := by simpa using hw
    rw [tickBody_noWants_eq t fr cs hnee hwf]
    simp only [show (0 : Nat) ≠ 1 from by decide]
    constructor
    · intro h; cases h
    · intro h
      exact absurd ((someoneWantsBin_iff cs).mpr h) hw

theorem isDue_binClientA : isDue 1000 binClientA = true := by
  unfold isDue binClientA
  norm_num

theorem isDue_binClientB : isDue 1000 binClientB = true := by
  unfold isDue binClientB
  norm_num

theorem wants_AB : someoneWantsBin [binClientA, binClientB] = true := by rfl

theorem fetch_once_when_bin_due_witness :
    (tickBody 1000 (Except.ok payloadA) [binClientA, binClientB]).fetchCount = 1 ∧
    ("b1", ServerMsg.catBinHeader "image/jpeg" 1000) ∈
      (tickBody 1000 (Except.ok payloadA) [binClientA, binClientB]).sent ∧
    ("b2", ServerMsg.catBinHeader "image/jpeg" 1000) ∈
      (tickBody 1000 (Except.ok payloadA) [binClientA, binClientB]).sent := by
  obtain ⟨h1, h2⟩ := fetch_once_when_bin_due 1000 (Except.ok payloadA)
    [binClientA, binClientB] binClientA (by simp) rfl isDue_binClientA
  refine ⟨h1, ?_, ?_⟩
  · exact (h2 payloadA rfl binClientA (by simp) rfl isDue_binClientA).1
  · exact (h2 payloadA rfl binClientB (by simp) rfl isDue_binClientB).1

theorem fetch_failure_tick_witness :
    (tickBody 1000 (Except.error "boom") [binClientA, binClientB]).errorsInc = 1 ∧
    ("b1", ServerMsg.error "boom") ∈
      (tickBody 1000 (Except.error "boom") [binClientA, binClientB]).sent ∧
    ("b2", ServerMsg.error "boom") ∈
      (tickBody 1000 (Except.error "boom") [binClientA, binClientB]).sent ∧
    (∀ x ∈ (tickBody 1000 (Except.error "boom") [binClientA, binClientB]).sent,
      isBinPayloadMsg x.2 = false) := by
  obtain ⟨h1, h2, h3, h4⟩ := fetch_failure_tick 1000 "boom" [binClientA, binClientB] wants_AB
  exact ⟨h1, h2 binClientA (by simp) rfl rfl, h2 binClientB (by simp) rfl rfl, h3⟩

theorem fetch_trigger_iff_witness :
    (tickBody 0 (Except.error "down") [binClientClosed]).fetchCount = 1 :=
  (fetch_trigger_iff 0 (Except.error "down") [binClientClosed]
    (List.cons_ne_nil _ _)).mpr ⟨binClientClosed, by simp, rfl, rfl⟩

/-- Claim C8, counterexample to the original wording: a due bin-mode
client on a tick whose fetch fails has lastSentAt advanced to the tick
time although the only message it receives is the error notification —
no push was attempted. -/
theorem lastpush_without_push_counterexample :
    (tickBody 1000 (Except.error "boom") [binClientA]).clients =
      [{ binClientA with lastSentAt := 1000 }] ∧
    (tickBody 1000 (Except.error "boom") [binClientA]).sent =
      [("b1", ServerMsg.error "boom")] := by
  have hlt : ((1000 : ℚ) - 0 < 200) = False := by norm_num
  have hlt2 : ((1000 : ℚ) < 200) = False := by norm_num
  rw [tickBody_err_eq 1000 "boom" [binClientA] (by rfl)]
  constructor
  · simp [pushLoop, pushClient, binClientA, hlt, hlt2]
  · simp [pushLoop, pushClient, binClientA, hlt, hlt2]

/-- Claim C4 (amended): when the origin is allowed and the registry is at
capacity the upgrade is rejected with the capacity error and no entry is
created; at capacity no entry is ever created regardless of origin; below
capacity with an allowed origin the connection is created and registered.
(The original claim fails because the origin check precedes the capacity
check, see the counterexample.) -/
theorem handleWs_capacity (origin : Option String) (id : String) (s : ServerState) :
    (originAllowed s.config origin = true → s.config.max_clients ≤ s.clients.length →
      handleWs origin id s = (WsResponse.tooManyClients, s)) ∧
    (s.config.max_clients ≤ s.clients.length →
      ((handleWs origin id s).2).clients = s.clients) ∧
    (originAllowed s.config origin = true → s.clients.length < s.config.max_clients →
      handleWs origin id s =
        (WsResponse.upgraded id,
         startTickerIfNeeded
           { s with clients := s.clients ++ [mkClient s.config id],
                    wsConnections := s.wsConnections + 1 })) := by
  refine ⟨?_, ?_, ?_⟩
  · intro ho hcap
    unfold handleWs
    simp [ho, hcap]
  · intro hcap
    unfold handleWs
    by_cases ho : originAllowed s.config origin = false
    · simp [ho]
    · simp [ho, hcap]
  · intro ho hlt
    unfold handleWs
    simp [ho, Nat.not_le.mpr hlt]

/-- Claim C4, counterexample to the original wording: at capacity but with
a disallowed origin, the response is the origin rejection, not the capacity
error. -/
theorem handleWs_capacity_counterexample :
    stateAtCapacity.config.max_clients ≤ stateAtCapacity.clients.length ∧
    handleWs (some "http://evil.example") "c2" stateAtCapacity =
      (WsResponse.originDenied, stateAtCapacity) ∧
    WsResponse.originDenied ≠ WsResponse.tooManyClients := by
  refine ⟨by decide, by rfl, by decide⟩

theorem handleWs_capacity_witness :
    handleWs none "c2" stateAtCapacity = (WsResponse.tooManyClients, stateAtCapacity) ∧
    ((handleWs none "c2" stateAtCapacity).2).clients = stateAtCapacity.clients :=
  ⟨(handleWs_capacity none "c2" stateAtCapacity).1 rfl (by decide),
   (handleWs_capacity none "c2" stateAtCapacity).2.1 (by decide)⟩

theorem startTicker_inv (u : ServerState) (hne : u.clients ≠ []) :
    tickerInv (startTickerIfNeeded u) := by
  unfold startTickerIfNeeded
  by_cases ht : u.ticker <;> simp [tickerInv, ht, hne]

theorem stopTicker_inv (u : ServerState) (hu : u.clients ≠ [] → u.ticker = true) :
    tickerInv (stopTickerIfNoClients u) := by
  unfold stopTickerIfNoClients
  by_cases hemp : u.clients.isEmpty = true
  · have hnil : u.clients = [] := List.isEmpty_iff.mp hemp
    cases ht : u.ticker with
    | false => simp [hemp, ht, tickerInv, hnil]
    | true => simp [hemp, ht, tickerInv, hnil]
  · have hne : u.clients ≠ [] := by
      intro hnil
      exact hemp (by simp [hnil])
    simp [hemp, tickerInv, hne, hu hne]

/-- Claim C5: every registration or removal event preserves the invariant
that the ticker is installed iff the registry is non-empty (so it starts
exactly on first registration and stops exactly when the registry empties);
moreover a tick with zero connections does no dispatcher work. -/
theorem registry_ticker_inv (e : RegistryEvent) (s : ServerState) (h : tickerInv s) :
    tickerInv (registryStep e s) ∧
    (∀ (t : ℚ) (fr : Except String BinPayload),
      (tickBody t fr []).sent = [] ∧ (tickBody t fr []).fetchCount = 0 ∧
      (tickBody t fr []).pulsed = false) := by
  refine ⟨?_, fun t fr => ⟨rfl, rfl, rfl⟩⟩
  cases e with
  | wsRequest origin id =>
    show tickerInv (handleWs origin id s).2
    unfold handleWs
    by_cases ho : originAllowed s.config origin = false
    · rw [if_pos ho]
      exact h
    · rw [if_neg ho]
      by_cases hcap : s.config.max_clients ≤ s.clients.length
      · rw [if_pos hcap]
        exact h
      · rw [if_neg hcap]
        exact startTicker_inv _ (by simp)
  | wsClose id =>
    show tickerInv (cleanup id s)
    unfold cleanup
    apply stopTicker_inv
    intro hne
    apply h.mpr
    intro hnil
    rw [hnil] at hne
    exact hne rfl

theorem registry_ticker_inv_witness :
    tickerInv (registryStep (RegistryEvent.wsRequest none "c1") emptyState) :=
  (registry_ticker_inv (RegistryEvent.wsRequest none "c1") emptyState
    (by simp [tickerInv, emptyState])).1

/-- Claim C6: after a successful reload the config-read endpoint returns
the new configuration, no connection entry changes (in particular interval,
mode and paused survive), and the new snapshot is broadcast to every SSE
client and every open WebSocket client. -/
theorem config_reload_success (newCfg : AppConfig) (s : ServerState) :
    apiConfig (reloadAttempt (Except.ok newCfg) s).1 = safeConfigForClient newCfg ∧
    (reloadAttempt (Except.ok newCfg) s).1.clients = s.clients ∧
    (∀ c ∈ s.sseClients,
      (Sink.sse c.id, ServerMsg.configMsg (safeConfigForClient newCfg)) ∈
        (reloadAttempt (Except.ok newCfg) s).2) ∧
    (∀ c ∈ s.clients, c.wsOpen = true →
      (Sink.ws c.id, ServerMsg.configMsg (safeConfigForClient newCfg)) ∈
        (reloadAttempt (Except.ok newCfg) s).2) := by
  refine ⟨rfl, rfl, ?_, ?_⟩
  · intro c hc
    apply List.mem_append_left
    exact List.mem_map.mpr ⟨c, hc, rfl⟩
  · intro c hc hopen
    apply List.mem_append_right
    exact List.mem_filterMap.mpr ⟨c, hc, by simp [hopen]⟩

/-- Claim C7: a failed reload leaves the previous configuration in effect,
increments the error counter, leaves all connections untouched, and
broadcasts nothing. -/
theorem config_reload_failure (e : String) (s : ServerState) :
    (reloadAttempt (Except.error e) s).1.config = s.config ∧
    (reloadAttempt (Except.error e) s).1.errors = s.errors + 1 ∧
    (reloadAttempt (Except.error e) s).1.clients = s.clients ∧
    (reloadAttempt (Except.error e) s).2 = [] :=
  ⟨rfl, rfl, rfl, rfl⟩

theorem config_reload_success_witness :
    apiConfig (reloadAttempt (Except.ok cfgNew) stateWithListeners).1 =
      safeConfigForClient cfgNew ∧
    (reloadAttempt (Except.ok cfgNew) stateWithListeners).1.clients =
      stateWithListeners.clients ∧
    (Sink.sse "s1", ServerMsg.configMsg (safeConfigForClient cfgNew)) ∈
      (reloadAttempt (Except.ok cfgNew) stateWithListeners).2 ∧
    (Sink.ws "b1", ServerMsg.configMsg (safeConfigForClient cfgNew)) ∈
      (reloadAttempt (Except.ok cfgNew) stateWithListeners).2 := by
  obtain ⟨h1, h2, h3, h4⟩ := config_reload_success cfgNew stateWithListeners
  exact ⟨h1, h2, h3 { id := "s1" } (by simp [stateWithListeners]),
    h4 binClientA (by simp [stateWithListeners]) rfl⟩

/-- Claim C3: an interval command is accepted (intervalMs becomes ms, ok
reply echoing the new value) iff the requested ms is a finite number with
200 ≤ ms ≤ 60000; otherwise intervalMs is unchanged and an error reply
citing the bound is produced.  The four conjuncts cover every case of the
argument: in-range, out-of-range, non-finite (NaN), and missing. -/
theorem interval_command_spec (jsNumber : String → Option ℚ) (t : ℚ)
    (args : List String) (c : WsClient) (hopen : c.wsOpen = true) :
    (∀ a q, args.head? = some a → jsNumber a = some q → 200 ≤ q → q ≤ 60000 →
      handleCommand jsNumber t "interval" args c =
        ({ c with intervalMs := q }, [ServerMsg.okIntervalSet q])) ∧
    (∀ a q, args.head? = some a → jsNumber a = some q → (q < 200 ∨ q > 60000) →
      handleCommand jsNumber t "interval" args c =
        (c, [ServerMsg.error "interval must be 200..60000 ms"])) ∧
    (∀ a, args.head? = some a → jsNumber a = none →
      handleCommand jsNumber t "interval" args c =
        (c, [ServerMsg.error "interval must be 200..60000 ms"])) ∧
    (args.head? = none →
      handleCommand jsNumber t "interval" args c =
        (c, [ServerMsg.error "interval must be 200..60000 ms"])) := by
  refine ⟨?_, ?_, ?_, ?_⟩
  · intro a q ha hq h200 h60000
    have hout : ¬ (q < 200 ∨ q > 60000) := by
      push_neg
      exact ⟨h200, h60000⟩
    simp [handleCommand, ha, hq, hout, hopen]
  · intro a q ha hq hout
    simp [handleCommand, ha, hq, hout, hopen]
  · intro a ha hq
    simp [handleCommand, ha, hq, hopen]
  · intro ha
    simp [handleCommand, ha, hopen]

/-- Claim C9: empty or whitespace-only inbound text is silently ignored
(state and replies unchanged, no reply), and input that starts with an
opening brace but fails the structured parse is handled by plain-text
parsing of the (trimmed) raw input instead of erroring immediately. -/
theorem onMessage_two_stage (jsNumber : String → Option ℚ)
    (parseJson : String → Option JsonCmdMsg) (t : ℚ) (raw : String) (c : WsClient) :
    (jsTrim raw = "" → onMessage jsNumber parseJson t raw c = (c, [])) ∧
    (startsWithLbrace (jsTrim raw) = true → parseJson (jsTrim raw) = none →
      onMessage jsNumber parseJson t raw c = handleText jsNumber t (jsTrim raw) c) := by
  constructor
  · intro h
    simp [onMessage, h]
  · intro hs hp
    have hne : jsTrim raw ≠ "" := by
      intro he
      rw [he] at hs
      exact absurd hs (by decide)
    simp [onMessage, hne, hs, hp]

theorem interval_command_spec_witness :
    handleCommand jsNumberLit 0 "interval" ["250"] urlClientA =
      ({ urlClientA with intervalMs := 250 }, [ServerMsg.okIntervalSet 250]) ∧
    handleCommand jsNumberLit 0 "interval" ["100"] urlClientA =
      (urlClientA, [ServerMsg.error "interval must be 200..60000 ms"]) := by
  obtain ⟨hok, herr, _, _⟩ := interval_command_spec jsNumberLit 0 ["250"] urlClientA rfl
  obtain ⟨_, herr2, _, _⟩ := interval_command_spec jsNumberLit 0 ["100"] urlClientA rfl
  exact ⟨hok "250" 250 rfl rfl (by decide) (by decide),
         herr2 "100" 100 rfl rfl (Or.inl (by decide))⟩

theorem onMessage_two_stage_witness :
    onMessage jsNumberLit parseJsonNone 0 "   " urlClientA = (urlClientA, []) ∧
    onMessage jsNumberLit parseJsonNone 0 "\x7bbad" urlClientA =
      handleText jsNumberLit 0 "\x7bbad" urlClientA := by
  obtain ⟨h1, _⟩ := onMessage_two_stage jsNumberLit parseJsonNone 0 "   " urlClientA
  obtain ⟨_, h2⟩ := onMessage_two_stage jsNumberLit parseJsonNone 0 "\x7bbad" urlClientA
  refine ⟨h1 (by decide), ?_⟩
  have := h2 (by decide) rfl
  have heq : jsTrim "\x7bbad" = "\x7bbad" := by decide
  rw [heq] at this
  exact this

end Catcaster
